import Mathlib

/-!
Verification of the pen-and-key-room-server core pipeline against its
natural-language specification.

The embedded code comes from:
* `src/backend/python/src/features/feature_extractor.py`
* `src/backend/python/src/ai_service/service_manager.py`
* `src/backend/python/src/ai_service/base.py`
* `src/backend/python/src/ai_service/services/open_ai.py`
* `src/backend/python/src/ai_service/services/google_ai.py`

Python floats are modelled as exact rationals (`ℚ`) where the source does
field arithmetic and comparisons, and as real numbers (`ℝ`) where the source
takes square roots (`np.sqrt`).  Python exceptions are modelled with
`Except`, optional dictionary keys with `Option`, and the external sinks
(database repositories) as append-only lists of records returned alongside
the result.
-/

namespace PenKey

/-! ## Drawing classifier (`service_manager.py`, `AIServiceManager.classify_drawing`) -/

/-- The `DrawingGroup` enum from `service_manager.py`. -/
inductive DrawingGroup where
  | GROUP_A
  | GROUP_B
  | GROUP_BOTH
deriving DecidableEq, Repr

/-- The `.value` strings of the `DrawingGroup` enum members. -/
def DrawingGroup.value : DrawingGroup → String
  | .GROUP_A => "A"
  | .GROUP_B => "B"
  | .GROUP_BOTH => "BOTH"

/-- One entry of the `"strokes"` list of a features dictionary.
The `"total_length"` key may be absent (`stroke.get("total_length", 0)`). -/
structure StrokeEntry where
  total_length : Option ℚ := none
deriving DecidableEq

/-- The `"global_features"` sub-dictionary of a features dictionary.
Both keys may be absent (`.get(key, 0)` in the source). -/
structure GlobalFeaturesDict where
  total_points : Option ℚ := none
  total_strokes : Option ℚ := none
deriving DecidableEq

/-- The value found under the `"strokes"` key of a features dictionary.
Python is dynamically typed: besides being absent (`features.get("strokes", [])`
then yields `[]`) or a list of stroke dictionaries, the key may hold a
non-iterable value, in which case `sum(... for stroke in strokes)` raises
`TypeError`. -/
inductive StrokesVal where
  | missing
  | list (l : List StrokeEntry)
  | nonIterable
deriving DecidableEq

/-- A features dictionary as consumed by `classify_drawing`.
`global_features` is absent or a dictionary with optional numeric keys. -/
structure FeaturesDict where
  global_features : Option GlobalFeaturesDict := none
  strokes : StrokesVal := .missing

/-- Embeds `AIServiceManager.classify_drawing` (`service_manager.py` lines 86-115).
An `Except.error` value models a raised Python exception (its name). -/
def classify_drawing (features : FeaturesDict) : Except String DrawingGroup :=
  let global_features := features.global_features.getD {}
  match features.strokes with
  | .nonIterable => .error "TypeError"
  | st =>
    let strokes : List StrokeEntry := match st with | .list l => l | _ => []
    let total_points := global_features.total_points.getD 0
    let total_length := (strokes.map (fun s => s.total_length.getD 0)).sum
    let point_density := if total_length > 0 then total_points / total_length else 0
    let total_strokes := global_features.total_strokes.getD 0
    if 6 < point_density ∧ point_density < 82 ∧ 4 ≤ total_strokes ∧ total_strokes ≤ 16 then
      .ok .GROUP_BOTH
    else if 50 < point_density ∨ total_strokes ≤ 2 ∨ total_length < 1/5 then
      .ok .GROUP_B
    else
      .ok .GROUP_A

/-- The claim-side derived quantity `total_length = sum(stroke.total_length for stroke in strokes)`. -/
def strokesTotalLength (l : List StrokeEntry) : ℚ :=
  (l.map (fun s => s.total_length.getD 0)).sum

/-- The claim-side derived quantity `point_density = total_points/total_length if total_length > 0 else 0`. -/
def pointDensity (total_points total_length : ℚ) : ℚ :=
  if total_length > 0 then total_points / total_length else 0

/-- Helper: full case analysis of `classify_drawing` on a well-typed stroke list. -/
theorem classify_split (gf : Option GlobalFeaturesDict) (l : List StrokeEntry) :
    (classify_drawing ⟨gf, .list l⟩ = .ok .GROUP_BOTH ↔
      (6 < pointDensity ((gf.getD {}).total_points.getD 0) (strokesTotalLength l) ∧
       pointDensity ((gf.getD {}).total_points.getD 0) (strokesTotalLength l) < 82 ∧
       4 ≤ (gf.getD {}).total_strokes.getD 0 ∧ (gf.getD {}).total_strokes.getD 0 ≤ 16)) ∧
    (classify_drawing ⟨gf, .list l⟩ = .ok .GROUP_B ↔
      (¬ (6 < pointDensity ((gf.getD {}).total_points.getD 0) (strokesTotalLength l) ∧
          pointDensity ((gf.getD {}).total_points.getD 0) (strokesTotalLength l) < 82 ∧
          4 ≤ (gf.getD {}).total_strokes.getD 0 ∧ (gf.getD {}).total_strokes.getD 0 ≤ 16) ∧
       (50 < pointDensity ((gf.getD {}).total_points.getD 0) (strokesTotalLength l) ∨
        (gf.getD {}).total_strokes.getD 0 ≤ 2 ∨ strokesTotalLength l < 1/5))) ∧
    (classify_drawing ⟨gf, .list l⟩ = .ok .GROUP_A ↔
      (¬ (6 < pointDensity ((gf.getD {}).total_points.getD 0) (strokesTotalLength l) ∧
          pointDensity ((gf.getD {}).total_points.getD 0) (strokesTotalLength l) < 82 ∧
          4 ≤ (gf.getD {}).total_strokes.getD 0 ∧ (gf.getD {}).total_strokes.getD 0 ≤ 16) ∧
       ¬ (50 < pointDensity ((gf.getD {}).total_points.getD 0) (strokesTotalLength l) ∨
          (gf.getD {}).total_strokes.getD 0 ≤ 2 ∨ strokesTotalLength l < 1/5))) := by
  simp only [classify_drawing, strokesTotalLength, pointDensity]
  split_ifs with h1 h2 <;> simp_all

/-- Helper: a missing `"strokes"` key behaves like the empty stroke list. -/
theorem classify_missing_eq (gf : Option GlobalFeaturesDict) :
    classify_drawing ⟨gf, .missing⟩ = classify_drawing ⟨gf, .list []⟩ := rfl

/-- C1: on any features dictionary (with a well-typed stroke list, possibly
empty, and possibly missing keys), `classify_drawing` returns `GROUP_BOTH`
iff `6 < point_density < 82` (strict on both ends) and
`4 ≤ total_strokes ≤ 16`; otherwise it returns `GROUP_B` iff
`point_density > 50` or `total_strokes ≤ 2` or `total_length < 0.2`;
otherwise `GROUP_A` — where `total_length` is the sum of the strokes'
`total_length` values and `point_density` is `total_points/total_length`
when `total_length > 0` and `0` otherwise, the three branches being tried
in exactly this order. -/
theorem classify_drawing_cases (gf : Option GlobalFeaturesDict) (l : List StrokeEntry) :
    let f : FeaturesDict := ⟨gf, .list l⟩
    let tp := (gf.getD {}).total_points.getD 0
    let ts := (gf.getD {}).total_strokes.getD 0
    let tl := strokesTotalLength l
    let pd := pointDensity tp tl
    (classify_drawing f = .ok .GROUP_BOTH ↔
      (6 < pd ∧ pd < 82 ∧ 4 ≤ ts ∧ ts ≤ 16)) ∧
    (classify_drawing f = .ok .GROUP_B ↔
      (¬ (6 < pd ∧ pd < 82 ∧ 4 ≤ ts ∧ ts ≤ 16) ∧ (50 < pd ∨ ts ≤ 2 ∨ tl < 1/5))) ∧
    (classify_drawing f = .ok .GROUP_A ↔
      (¬ (6 < pd ∧ pd < 82 ∧ 4 ≤ ts ∧ ts ≤ 16) ∧ ¬ (50 < pd ∨ ts ≤ 2 ∨ tl < 1/5))) :=
  classify_split gf l

/-- Witness for C1 at a concrete input: ten points over total length 1 with
five strokes gives `point_density = 10`, `total_strokes = 5`, hence `GROUP_BOTH`. -/
theorem classify_drawing_cases_witness :
    classify_drawing ⟨some ⟨some 10, some 5⟩, .list [⟨some 1⟩]⟩ = .ok .GROUP_BOTH :=
  (classify_drawing_cases (some ⟨some 10, some 5⟩) [⟨some 1⟩]).1.mpr
    (by norm_num [pointDensity, strokesTotalLength])

/-- C10 counterexample: `classify_drawing` is not total over arbitrary feature
dictionaries — the dictionary `{"strokes": 1}` (the `"strokes"` key holds a
non-iterable value) makes `sum(stroke.get("total_length", 0) for stroke in strokes)`
raise `TypeError`, so the function raises rather than returning a group. -/
theorem classify_drawing_raises_on_non_iterable :
    classify_drawing ⟨none, .nonIterable⟩ = .error "TypeError" := rfl

/-- C10 (amended): over every features dictionary whose `"strokes"` value is
well-typed (absent, or a list of stroke dictionaries), `classify_drawing`
never raises and always returns one of the three groups (missing keys default
to 0 and the point-density division is guarded by `total_length > 0`);
moreover every input whose summed stroke `total_length` equals 0 — including
zero strokes — is routed to `GROUP_B`, because `point_density` is then 0 (so
the `GROUP_BOTH` branch cannot match) and `total_length < 0.2` holds. -/
theorem classify_drawing_total_wellTyped (gf : Option GlobalFeaturesDict)
    (st : StrokesVal) (hst : st ≠ .nonIterable) :
    (∃ g, classify_drawing ⟨gf, st⟩ = .ok g) ∧
    ((match st with | .list l => strokesTotalLength l | _ => 0) = 0 →
      classify_drawing ⟨gf, st⟩ = .ok .GROUP_B) := by
  have key : ∀ (l : List StrokeEntry),
      (∃ g, classify_drawing ⟨gf, .list l⟩ = .ok g) ∧
      (strokesTotalLength l = 0 → classify_drawing ⟨gf, .list l⟩ = .ok .GROUP_B) := by
    intro l
    constructor
    · simp only [classify_drawing]
      split_ifs <;> exact ⟨_, rfl⟩
    · intro hzero
      have hpd : pointDensity ((gf.getD {}).total_points.getD 0) (strokesTotalLength l) = 0 := by
        simp [pointDensity, hzero]
      refine (classify_split gf l).2.1.mpr ⟨?_, Or.inr (Or.inr ?_)⟩
      · rw [hpd]; norm_num
      · rw [hzero]; norm_num
  cases st with
  | missing =>
      refine ⟨?_, ?_⟩
      · rw [classify_missing_eq]; exact (key []).1
      · intro _
        rw [classify_missing_eq]
        exact (key []).2 (by simp [strokesTotalLength])
  | list l => exact key l
  | nonIterable => exact absurd rfl hst

/-- Witness for C10 (amended) at the empty dictionary: no keys at all, zero
strokes, total length 0, routed to `GROUP_B`. -/
theorem classify_drawing_total_wellTyped_witness :
    (StrokesVal.missing ≠ StrokesVal.nonIterable) ∧
    classify_drawing ⟨none, .missing⟩ = .ok .GROUP_B :=
  ⟨by decide, (classify_drawing_total_wellTyped none .missing (by decide)).2 (by decide)⟩

/-! ## OpenAI adapter (`services/open_ai.py`, `OpenAIService`) -/

/-- The `OpenAIModel` enum from `open_ai.py`. -/
inductive OpenAIModel where
  | GPT4o
  | GPT4oMINI
  | GPT4oTURBO
  | GPT35TURBO
deriving DecidableEq, Repr

/-- The `.value` strings of the `OpenAIModel` enum members. -/
def OpenAIModel.value : OpenAIModel → String
  | .GPT4o => "chatgpt-4o-latest"
  | .GPT4oMINI => "gpt-4o-mini"
  | .GPT4oTURBO => "gpt-4-turbo"
  | .GPT35TURBO => "gpt-3.5-turbo-0125"

/-- The `ModelConfig` dataclass from `open_ai.py` (defaults 250 / 5 / 1.0). -/
structure ModelConfig where
  max_tokens : ℤ := 250
  timeout : ℤ := 5
  temperature : ℚ := 1
deriving DecidableEq

/-- Embeds `OpenAIService.MODELS_CONFIGS`: every member of the enum is mapped to a
default `ModelConfig`; `self.model_configs.get(model)` therefore never
returns `None` for a configured model.  Modelled as the `.get` lookup. -/
def MODELS_CONFIGS : OpenAIModel → Option ModelConfig
  | _ => some {}

/-- Outcome of one vendor-transport call
(`self.client.chat.completions.create(...).choices[0].message.content`):
either the call raises, or it returns `message.content`, which may itself be
`None` or any string (including the empty string). -/
inductive CallOutcome where
  | raises
  | returns (content : Option String)
deriving DecidableEq

/-- Loop body of `OpenAIService.call_ai_api` over the remaining model list.
`cur` is `self.current_model`, which the source assigns *before* each call
attempt.  Returns the value of `call_ai_api` together with the final
`self.current_model`. -/
def callLoop (configs : OpenAIModel → Option ModelConfig)
    (transport : OpenAIModel → CallOutcome) :
    List OpenAIModel → Option OpenAIModel → Option String × Option OpenAIModel
  | [], cur => (none, cur)
  | m :: rest, cur =>
    match configs m with
    | none => callLoop configs transport rest cur
    | some _ =>
      match transport m with
      | .raises => callLoop configs transport rest m
      | .returns content => (content, m)

/-- Embeds `OpenAIService.call_ai_api` (`open_ai.py` lines 88-125): iterate the
configured models in order; skip a model without a config entry; set
`self.current_model`, attempt one call; on an exception log and continue;
on a return, return `message.content` immediately.  A disabled service
returns `None` without touching `current_model`. -/
def call_ai_api (enabled : Bool) (models : List OpenAIModel)
    (configs : OpenAIModel → Option ModelConfig)
    (transport : OpenAIModel → CallOutcome)
    (current : Option OpenAIModel) : Option String × Option OpenAIModel :=
  if enabled then callLoop configs transport models current
  else (none, current)

/-- The `OpenAIService.model_name` property: `f"OpenAI_{...}"` of
`self.current_model`, or `"OpenAI_unknown"` when `current_model is None`. -/
def openai_model_name (current : Option OpenAIModel) : String :=
  "OpenAI_" ++ (match current with | some m => m.value | none => "unknown")

/-- Transport used by the C6 counterexample: the first model returns an
*empty* response, the second returns a usable one, any other raises. -/
def emptyThenGood : OpenAIModel → CallOutcome
  | .GPT4o => .returns (some "")
  | .GPT4oMINI => .returns (some "good")
  | _ => .raises

/-- Transport used by the C6 witness: the first model raises, the second
returns a usable response. -/
def raiseThenGood : OpenAIModel → CallOutcome
  | .GPT4o => .raises
  | _ => .returns (some "good")

/-- C6 counterexample.  With models `[GPT4o, GPT4oMINI]` where `GPT4o`
returns the empty string, the adapter stops at `GPT4o` and returns the empty
response instead of advancing to `GPT4oMINI`'s non-empty `"good"` — so
iteration does *not* stop at the first call returning a non-empty response.
And with the single model `[GPT4o]` raising, `model_name` reflects the last
attempted model (`current_model` is assigned before the call), not
`"unknown"`. -/
theorem call_ai_api_claim_counterexample :
    call_ai_api true [.GPT4o, .GPT4oMINI] MODELS_CONFIGS emptyThenGood none
      = (some "", some .GPT4o) ∧
    (some "" : Option String) ≠ some "good" ∧
    call_ai_api true [.GPT4o] MODELS_CONFIGS (fun _ => .raises) none
      = (none, some .GPT4o) ∧
    openai_model_name (some .GPT4o) ≠ "unknown" := by
  refine ⟨rfl, by decide, rfl, by decide⟩

/-- C6 (amended): each configured model is attempted at most once, in list
order; an error on one model advances to the next; iteration stops at the
first call that *returns without error* (even when its response is empty or
`None`, in which case that empty response is reported and later models are
never attempted); if every model raises, the adapter returns `None` (no
exception escapes) and `current_model` is left at the last attempted model,
so the reported `model_name` is `"OpenAI_{identifier}"` of the last
attempted model — the producing model whenever one produced a response —
and `"OpenAI_unknown"` only when no model was ever attempted (disabled
adapter with no models). -/
theorem call_ai_api_fallback :
    (∀ (cur : Option OpenAIModel) (pre : List OpenAIModel) (m : OpenAIModel)
        (post : List OpenAIModel) (t : OpenAIModel → CallOutcome) (c : Option String),
      (∀ x ∈ pre, t x = .raises) → t m = .returns c →
      call_ai_api true (pre ++ m :: post) MODELS_CONFIGS t cur = (c, some m)) ∧
    (∀ (cur : Option OpenAIModel) (ms : List OpenAIModel) (t : OpenAIModel → CallOutcome),
      (∀ x ∈ ms, t x = .raises) →
      call_ai_api true ms MODELS_CONFIGS t cur = (none, ms.getLast? <|> cur)) ∧
    (∀ (cur : Option OpenAIModel) (ms : List OpenAIModel) (t : OpenAIModel → CallOutcome),
      call_ai_api false ms MODELS_CONFIGS t cur = (none, cur) ∧
      openai_model_name none = "OpenAI_unknown") := by
  refine ⟨?_, ?_, ?_⟩
  · intro cur pre m post t c hpre hm
    induction pre generalizing cur with
    | nil => simp [call_ai_api, callLoop, MODELS_CONFIGS, hm]
    | cons x xs ih =>
      have hx : t x = .raises := hpre x (by simp)
      have hxs : ∀ y ∈ xs, t y = .raises := fun y hy => hpre y (by simp [hy])
      have := ih (some x) hxs
      simpa [call_ai_api, callLoop, MODELS_CONFIGS, hx] using this
  · intro cur ms t hms
    induction ms generalizing cur with
    | nil => simp [call_ai_api, callLoop]
    | cons x xs ih =>
      have hx : t x = .raises := hms x (by simp)
      have hxs : ∀ y ∈ xs, t y = .raises := fun y hy => hms y (by simp [hy])
      have h2 := ih (some x) hxs
      simp only [call_ai_api, if_pos] at h2 ⊢
      simp only [callLoop, MODELS_CONFIGS, hx]
      rw [h2]
      cases xs with
      | nil => simp
      | cons y ys =>
        obtain ⟨z, hz⟩ := Option.isSome_iff_exists.mp
          (List.getLast?_isSome.mpr (List.cons_ne_nil y ys))
        simp [hz]
  · intro cur ms t
    exact ⟨rfl, rfl⟩

/-- Witness for C6 (amended): first model raises, second returns `"ok"`;
the call returns `"ok"` attributed to the second model. -/
theorem call_ai_api_fallback_witness :
    (∀ x ∈ [OpenAIModel.GPT4o], raiseThenGood x = .raises) ∧
    call_ai_api true ([OpenAIModel.GPT4o] ++ OpenAIModel.GPT4oMINI :: [])
      MODELS_CONFIGS raiseThenGood none = (some "good", some .GPT4oMINI) :=
  ⟨by decide, call_ai_api_fallback.1 none [.GPT4o] .GPT4oMINI [] raiseThenGood
    (some "good") (by decide) (by decide)⟩

/-! ## Response parsing (`open_ai.py` / `google_ai.py`, `parse_response`) -/

/-- The canonical result message (`ShapeRecognitionServer` from the generated
protobuf module).  Modelled from the spec: the proto definition is not under
`src/`; per §3 the record carries `success`, `result_id`, `shape_id`,
`score`, `reasoning`, `model_name`, raw `api_response` and `error_message`,
with proto3 defaults (`false`, `""`, `0`) for unset fields. -/
structure ShapeRecognitionServer where
  success : Bool := false
  result_id : String := ""
  shape_id : String := ""
  score : ℤ := 0
  reasoning : String := ""
  model_name : String := ""
  api_response : String := ""
  error_message : String := ""
deriving DecidableEq, Repr

/-- A shape-catalog entry as consulted by `parse_response`
(only its `"shape_id"` key is read there). -/
structure ShapeInfo where
  shape_id : String
deriving DecidableEq, Repr

/-- Embeds `AIService.create_error_response` (`base.py` lines 167-182): a failed
message whose `result_id` is the given error id, or a fresh uuid when none is
given (the fresh uuid is passed here explicitly as `fresh_uuid`). -/
def create_error_response (message : String) (error_id : Option String)
    (fresh_uuid : String) : ShapeRecognitionServer :=
  { success := false
    result_id := error_id.getD fresh_uuid
    error_message := message }

/-- The JSON object shape the adapters extract: `shape_id`, `score`
(converted with `int(...)`), `reason`. -/
structure ParsedResp where
  shape_id : String
  score : ℤ
  reason : String
deriving DecidableEq, Repr

/-- Python's `json.loads` combined with the subscript/`int()` accesses
`result["shape_id"]`, `int(result["score"])`, `result["reason"]`: either an
exception (modelled as its `str(e)` message) or the three fields.  The
adapters' own code is parametric in this stdlib behaviour, so the embedding
takes it as a function argument; `demoLoads` below is a concrete instance. -/
abbrev Loads := String → Except String ParsedResp

/-- Python `str.split(sep)` on character lists (leftmost, non-overlapping
matches), written with structural fuel recursion so that concrete instances
reduce inside the kernel. -/
def pySplitAux (sep : List Char) : Nat → List Char → List Char → List (List Char)
  | _, [], acc => [acc.reverse]
  | 0, rest, acc => [acc.reverse ++ rest]
  | fuel+1, c :: cs, acc =>
    if sep.isPrefixOf (c :: cs) then
      acc.reverse :: pySplitAux sep fuel ((c :: cs).drop sep.length) []
    else
      pySplitAux sep fuel cs (c :: acc)

/-- Python `str.split(sep)` for a non-empty separator. -/
def pySplit (s sep : String) : List String :=
  if sep.data.isEmpty then [s]
  else (pySplitAux sep.data s.data.length s.data []).map String.mk

/-- Python `str.strip()`: remove leading and trailing whitespace. -/
def pyTrim (s : String) : String :=
  String.mk (((s.data.dropWhile Char.isWhitespace).reverse.dropWhile
    Char.isWhitespace).reverse)

/-- Python `s.startswith(pre)`. -/
def pyStartsWith (s pre : String) : Bool :=
  pre.data.isPrefixOf s.data

/-- Python `s.endswith(suf)`. -/
def pyEndsWith (s suf : String) : Bool :=
  suf.data.reverse.isPrefixOf s.data.reverse

/-- Decimal digit-string to `ℕ` (the core of Python's `int(...)` on strings). -/
def pyToNat (s : String) : Option ℕ :=
  if s.data ≠ [] ∧ s.data.all Char.isDigit then
    some (s.data.foldl (fun n c => 10 * n + (c.toNat - Char.toNat '0')) 0)
  else none

/-- The fence-stripping step of `OpenAIService.parse_response`
(also in the Anthropic and Mistral adapters, but *not* in the Google one):
`if "```json" in json_text: json_text = json_text.split("```json")[1].split("```")[0].strip()`. -/
def stripFence (json_text : String) : String :=
  if (pySplit json_text "```json").length > 1 then
    pyTrim (((pySplit ((pySplit json_text "```json").getD 1 "") "```").headD ""))
  else json_text

/-- Shared tail of every adapter's `parse_response`: run `json.loads` (plus
field access), look the parsed `shape_id` up in `shape_infos` (first match of
`s["shape_id"] == result["shape_id"]`), raise
`ValueError(f"Invalid shape ID: {...}")` on a miss; every exception is caught
and converted by `create_error_response(str(e))`. -/
def parseJsonText (loads : Loads) (dumps : ParsedResp → String) (json_text : String)
    (shape_infos : List ShapeInfo) (result_id : String) (model_name : String)
    (fresh_uuid : String) : ShapeRecognitionServer :=
  match loads json_text with
  | .error e => create_error_response e none fresh_uuid
  | .ok result =>
    match shape_infos.find? (fun s => s.shape_id == result.shape_id) with
    | none => create_error_response ("Invalid shape ID: " ++ result.shape_id) none fresh_uuid
    | some _ =>
      { success := true
        result_id := result_id
        shape_id := result.shape_id
        score := result.score
        reasoning := result.reason
        model_name := model_name
        api_response := dumps result }

/-- Embeds `OpenAIService.parse_response` (`open_ai.py` lines 127-164):
strip whitespace, strip a ```json fence when present, then parse. -/
def openai_parse_response (loads : Loads) (dumps : ParsedResp → String)
    (response : String) (shape_infos : List ShapeInfo) (result_id : String)
    (model_name : String) (fresh_uuid : String) : ShapeRecognitionServer :=
  parseJsonText loads dumps (stripFence (pyTrim response)) shape_infos result_id
    model_name fresh_uuid

/-- Embeds `GoogleAIService.parse_response` (`google_ai.py` lines 143-178):
strip whitespace and parse directly — there is *no* fence-stripping step. -/
def google_parse_response (loads : Loads) (dumps : ParsedResp → String)
    (response : String) (shape_infos : List ShapeInfo) (result_id : String)
    (model_name : String) (fresh_uuid : String) : ShapeRecognitionServer :=
  parseJsonText loads dumps (pyTrim response) shape_infos result_id
    model_name fresh_uuid

/-- Extract the string value following `"key": "` up to the closing quote. -/
def getStrField (s key : String) : Option String :=
  match pySplit s ("\"" ++ key ++ "\": \"") with
  | _ :: rest :: _ => (pySplit rest "\"").head?
  | _ => none

/-- Extract the integer value following `"key": ` up to a comma or brace. -/
def getIntField (s key : String) : Option ℤ :=
  match pySplit s ("\"" ++ key ++ "\": ") with
  | _ :: rest :: _ =>
    (pyToNat (pyTrim ((pySplit ((pySplit rest ",").headD "") "\x7d").headD ""))).map
      (fun n => (n : ℤ))
  | _ => none

/-- A concrete stand-in for `json.loads` adequate for the flat response
schema: accepts only a brace-delimited object and extracts the three
required fields, failing with a `json.JSONDecodeError`-style message on
anything else (in particular on text still wrapped in a code fence). -/
def demoLoads : Loads := fun s =>
  if pyStartsWith s "\x7b" ∧ pyEndsWith s "\x7d" then
    match getStrField s "shape_id", getIntField s "score", getStrField s "reason" with
    | some sid, some sc, some r => .ok ⟨sid, sc, r⟩
    | _, _, _ => .error "Expecting value: line 1 column 1 (char 0)"
  else .error "Expecting value: line 1 column 1 (char 0)"

/-- A concrete stand-in for `json.dumps` on the parsed object. -/
def demoDumps (r : ParsedResp) : String :=
  "\x7b\"shape_id\": \"" ++ r.shape_id ++ "\", \"score\": " ++ toString r.score ++
    ", \"reason\": \"" ++ r.reason ++ "\"\x7d"

/-- A fenced response whose inner JSON names the catalogued shape `circle`
(the braces are hex-escaped for the literal). -/
def fencedCircle : String :=
  "```json\n" ++ "\x7b" ++ "\"shape_id\": \"circle\", \"score\": 90, \"reason\": \"round\"" ++
    "\x7d" ++ "\n```"

/-- A well-formed bare JSON response naming the uncatalogued shape `square`. -/
def squareJson : String :=
  "\x7b" ++ "\"shape_id\": \"square\", \"score\": 90, \"reason\": \"r\"" ++ "\x7d"

/-- C7 counterexample: the fence is *not* stripped by every adapter.  The same
fenced, otherwise well-formed response (whose inner JSON names a catalogued
shape) parses successfully through `OpenAIService.parse_response` but fails
through `GoogleAIService.parse_response`, because the Google adapter passes
the still-fenced text to `json.loads`. -/
theorem parse_response_fence_counterexample :
    (openai_parse_response demoLoads demoDumps
      fencedCircle
      [⟨"circle"⟩] "rid" "OpenAI_gpt-3.5-turbo-0125" "u1").success = true ∧
    (google_parse_response demoLoads demoDumps
      fencedCircle
      [⟨"circle"⟩] "rid" "Google_gemini-1.5-pro" "u1").success = false ∧
    (google_parse_response demoLoads demoDumps
      fencedCircle
      [⟨"circle"⟩] "rid" "Google_gemini-1.5-pro" "u1").error_message =
      "Expecting value: line 1 column 1 (char 0)" := by
  refine ⟨by decide, by decide, by decide⟩

/-- C7 (amended): the OpenAI-style adapters (OpenAI, and identically Anthropic
and Mistral) strip a ```json code fence from the trimmed raw text before JSON
parsing, while the Google adapter parses the trimmed raw text with no fence
stripping; for both adapters, a parsed `shape_id` absent from the supplied
shape catalog yields a failed result whose error message names the invalid
id, any JSON parse / field error yields a failed result carrying the error
message, and a catalogued `shape_id` yields the successful result — never an
uncaught exception. -/
theorem parse_response_contract (loads : Loads) (dumps : ParsedResp → String)
    (cat : List ShapeInfo) (rid mn u : String) :
    (∀ resp, openai_parse_response loads dumps resp cat rid mn u =
      parseJsonText loads dumps (stripFence (pyTrim resp)) cat rid mn u) ∧
    (∀ resp, google_parse_response loads dumps resp cat rid mn u =
      parseJsonText loads dumps (pyTrim resp) cat rid mn u) ∧
    (∀ jt e, loads jt = .error e →
      parseJsonText loads dumps jt cat rid mn u =
        { success := false, result_id := u, error_message := e }) ∧
    (∀ jt r, loads jt = .ok r → (∀ s ∈ cat, s.shape_id ≠ r.shape_id) →
      parseJsonText loads dumps jt cat rid mn u =
        { success := false, result_id := u,
          error_message := "Invalid shape ID: " ++ r.shape_id }) ∧
    (∀ jt r, loads jt = .ok r → (∃ s ∈ cat, s.shape_id = r.shape_id) →
      parseJsonText loads dumps jt cat rid mn u =
        { success := true, result_id := rid, shape_id := r.shape_id,
          score := r.score, reasoning := r.reason, model_name := mn,
          api_response := dumps r }) := by
  refine ⟨fun _ => rfl, fun _ => rfl, ?_, ?_, ?_⟩
  · intro jt e h
    simp [parseJsonText, h, create_error_response]
  · intro jt r h hmiss
    have hfind : cat.find? (fun s => s.shape_id == r.shape_id) = none := by
      apply List.find?_eq_none.mpr
      intro s hs
      simpa using hmiss s hs
    simp [parseJsonText, h, hfind, create_error_response]
  · intro jt r h hhit
    have hsome : (cat.find? (fun s => s.shape_id == r.shape_id)).isSome := by
      apply List.find?_isSome.mpr
      obtain ⟨s, hs, he⟩ := hhit
      exact ⟨s, hs, by simpa using he⟩
    obtain ⟨s, hs⟩ := Option.isSome_iff_exists.mp hsome
    simp [parseJsonText, h, hs]

/-- Witness for C7 (amended): a well-formed response naming an uncatalogued
shape id yields a failed result whose message names that id. -/
theorem parse_response_contract_witness :
    demoLoads squareJson =
      .ok ⟨"square", 90, "r"⟩ ∧
    parseJsonText demoLoads demoDumps
      squareJson
      [⟨"circle"⟩] "rid" "mn" "u1" =
      { success := false, result_id := "u1",
        error_message := "Invalid shape ID: " ++ "square" } :=
  ⟨rfl,
    (parse_response_contract demoLoads demoDumps [⟨"circle"⟩] "rid" "mn" "u1").2.2.2.1
      squareJson
      ⟨"square", 90, "r"⟩ rfl (by decide)⟩

/-! ## Shape recognition orchestration (`base.py`, `service_manager.py`) -/

/-- The identifying fields of a `DrawingData` message read by `recognize_shape`. -/
structure DrawingIds where
  drawing_id : String
  scene_id : String
  client_id : String
deriving DecidableEq, Repr

/-- A raised Python exception: `type(e).__name__`, `str(e)` and
`traceback.format_exc()`. -/
structure PyExc where
  ename : String
  emsg : String
  trace : String
deriving DecidableEq, Repr

/-- A record inserted by `ResultsRepository.insert_result`. -/
structure ResultRecord where
  result_id : String
  drawing_id : String
  shape_id : String
  success : Bool
deriving DecidableEq, Repr

/-- A record inserted by `ResultDetailsRepository.insert_detail`. -/
structure DetailRecord where
  result_id : String
  drawing_id : String
  scene_id : String
  shape_id : String
  success : Bool
  score : ℤ
  reasoning : String
  process_time_ms : ℤ
  model_name : String
  api_response : String
  error_message : String
  client_id : String
deriving DecidableEq, Repr

/-- A record inserted by `ErrorLogsRepository.insert_error_log`. -/
structure ErrorRecord where
  error_id : String
  result_id : String
  drawing_id : String
  scene_id : String
  error_type : String
  error_message : String
  stack_trace : String
deriving DecidableEq, Repr

/-- The observable outcome of one `recognize_shape` run: the returned message
together with everything appended to the three sinks. -/
structure RecognizeEffect where
  result : ShapeRecognitionServer
  results_log : List ResultRecord := []
  details_log : List DetailRecord := []
  error_log : List ErrorRecord := []
deriving DecidableEq, Repr

/-- Embeds `int((now - start_time) * 1000)`: whole milliseconds; `int()` truncates
toward zero, which agrees with `Int.floor` for the non-negative durations
sampled here. -/
def pyIntMs (t_start t_now : ℚ) : ℤ :=
  Int.floor ((t_now - t_start) * 1000)

/-- Embeds `AIService.recognize_shape` (`base.py` lines 76-150).  The collaborating
pieces that are not this function's own code are passed in explicitly:
`promptRes` is the outcome of the three prompt-building calls (which may
raise on malformed input), `callRes` the outcome of the abstract
`call_ai_api`, `parse` the adapter's `parse_response` (all four adapters
catch their own exceptions and always return a message), `model_name` the
adapter's `model_name` property at insertion time, `result_id`/`error_id`/
`no_resp_uuid` the `uuid.uuid4()` draws, and `t_start`/`t_now` the
`time.time()` samples at function entry and at detail insertion.

The source's `if not result:` guard after `parse_response` can never fire:
protobuf messages define no `__bool__`/`__len__`, so any
`ShapeRecognitionServer` instance — including the failed one produced by
`create_error_response` on a parse error — is truthy, and control falls
through to the two `insert` calls with hardcoded `"success": True`. -/
def recognize_shape (drawing : DrawingIds)
    (promptRes : Except PyExc (String × String))
    (callRes : Except PyExc (Option String))
    (parse : String → ShapeRecognitionServer)
    (model_name : String)
    (result_id error_id no_resp_uuid : String)
    (t_start t_now : ℚ) : RecognizeEffect :=
  let errEffect : PyExc → RecognizeEffect := fun e =>
    { result := create_error_response e.emsg (some error_id) no_resp_uuid,
      error_log := [{ error_id := error_id, result_id := result_id,
                      drawing_id := drawing.drawing_id, scene_id := drawing.scene_id,
                      error_type := e.ename, error_message := e.emsg,
                      stack_trace := e.trace }] }
  match promptRes with
  | .error e => errEffect e
  | .ok _ =>
    match callRes with
    | .error e => errEffect e
    | .ok response =>
      if response.getD "" = "" then
        { result := create_error_response "No response from AI service" none no_resp_uuid }
      else
        let resp := response.getD ""
        let result := parse resp
        { result := result,
          results_log := [{ result_id := result_id, drawing_id := drawing.drawing_id,
                            shape_id := result.shape_id, success := true }],
          details_log := [{ result_id := result_id, drawing_id := drawing.drawing_id,
                            scene_id := drawing.scene_id, shape_id := result.shape_id,
                            success := true, score := result.score,
                            reasoning := result.reasoning,
                            process_time_ms := pyIntMs t_start t_now,
                            model_name := model_name, api_response := resp,
                            error_message := "", client_id := drawing.client_id }] }

/-- Embeds `AIServiceManager.process_drawing` (`service_manager.py` lines 117-149).
`services group` is the effect of awaiting the bound service's
`recognize_shape` (which itself catches all exceptions), or `none` when no
service is bound to the group.

When `classify_drawing` itself raises, the `except` handler's f-string
`f"Error processing with {group.value} service: ..."` reads the local
`group` before any assignment to it, so the handler raises
`UnboundLocalError` and that exception escapes `process_drawing`. -/
def process_drawing (features : FeaturesDict)
    (services : DrawingGroup → Option RecognizeEffect) : Except String RecognizeEffect :=
  match classify_drawing features with
  | .error _ => .error "UnboundLocalError"
  | .ok group =>
    match services group with
    | none =>
      .ok { result := { success := false,
                        error_message :=
                          "No AI service configured for group " ++ group.value } }
    | some eff => .ok eff

/-- C8: evaluation of `process_drawing` at a failing input.  On the features
dictionary `{"strokes": 1}`, `classify_drawing` raises `TypeError`; inside
the `except` handler the f-string reads the never-assigned local `group`, so
`process_drawing` raises `UnboundLocalError` instead of returning a failed
`RecognitionResult`.  (By contrast a *successful* classification whose group
has no bound service does return a failed result, as the second conjunct
shows.) -/
theorem process_drawing_unbound_local :
    process_drawing ⟨none, .nonIterable⟩ (fun _ => none) = .error "UnboundLocalError" ∧
    process_drawing ⟨none, .missing⟩ (fun _ => none) =
      .ok { result := { success := false,
                        error_message := "No AI service configured for group B" } } :=
  ⟨rfl, rfl⟩

/-- C9: evaluation of `recognize_shape` at a failing input.  When the adapter
response `"not json"` fails to parse, `parse_response` returns a *failed*
message, but the `if not result:` guard cannot fire (protobuf messages are
always truthy), so a result record and a detail record — both with hardcoded
`success = True` — are still written to the result sink while the returned
result has `success = false`. -/
theorem recognize_shape_parse_failure_records :
    (recognize_shape ⟨"d1", "s1", "c1"⟩ (.ok ("sys", "usr")) (.ok (some "not json"))
        (fun s => openai_parse_response demoLoads demoDumps s [⟨"circle"⟩]
          "rid1" "OpenAI_gpt-3.5-turbo-0125" "u-parse")
        "OpenAI_gpt-3.5-turbo-0125" "rid1" "eid1" "u-nr" 0 (42/1000)).result.success
      = false ∧
    (recognize_shape ⟨"d1", "s1", "c1"⟩ (.ok ("sys", "usr")) (.ok (some "not json"))
        (fun s => openai_parse_response demoLoads demoDumps s [⟨"circle"⟩]
          "rid1" "OpenAI_gpt-3.5-turbo-0125" "u-parse")
        "OpenAI_gpt-3.5-turbo-0125" "rid1" "eid1" "u-nr" 0 (42/1000)).results_log.map
        (fun r => r.success) = [true] ∧
    (recognize_shape ⟨"d1", "s1", "c1"⟩ (.ok ("sys", "usr")) (.ok (some "not json"))
        (fun s => openai_parse_response demoLoads demoDumps s [⟨"circle"⟩]
          "rid1" "OpenAI_gpt-3.5-turbo-0125" "u-parse")
        "OpenAI_gpt-3.5-turbo-0125" "rid1" "eid1" "u-nr" 0 (42/1000)).details_log.map
        (fun r => r.success) = [true] ∧
    (recognize_shape ⟨"d1", "s1", "c1"⟩ (.ok ("sys", "usr")) (.ok none)
        (fun s => openai_parse_response demoLoads demoDumps s [⟨"circle"⟩]
          "rid1" "OpenAI_gpt-3.5-turbo-0125" "u-parse")
        "OpenAI_gpt-3.5-turbo-0125" "rid1" "eid1" "u-nr" 0 (42/1000)).results_log
      = [] := by
  refine ⟨by decide, by decide, by decide, by decide⟩

/-! ## Geometry (`features/feature_extractor.py`, `FeatureExtractor`) -/

/-- The `Point3D` dataclass.  Python floats are modelled as exact rationals. -/
structure Point3D where
  x : ℚ
  y : ℚ
  z : ℚ
deriving DecidableEq, Inhabited, Repr

/-- Embeds `FeatureExtractor.distance_point_to_line` (`feature_extractor.py` lines
46-75).  The degeneracy test compares all three coordinates; the degenerate
branch is the full 3D Euclidean distance to the shared endpoint; the
non-degenerate branch divides the *planar* (x,y) cross-product magnitude by
the *3D* segment length. -/
noncomputable def distance_point_to_line (point line_start line_end : Point3D) : ℝ :=
  if line_start.x = line_end.x ∧ line_start.y = line_end.y ∧ line_start.z = line_end.z then
    Real.sqrt (((point.x - line_start.x : ℚ) : ℝ) ^ 2 +
      ((point.y - line_start.y : ℚ) : ℝ) ^ 2 +
      ((point.z - line_start.z : ℚ) : ℝ) ^ 2)
  else
    ((|(line_end.x - line_start.x) * (line_start.y - point.y) -
       (line_start.x - point.x) * (line_end.y - line_start.y)| : ℚ) : ℝ) /
    Real.sqrt (((line_end.x - line_start.x : ℚ) : ℝ) ^ 2 +
      ((line_end.y - line_start.y : ℚ) : ℝ) ^ 2 +
      ((line_end.z - line_start.z : ℚ) : ℝ) ^ 2)

/-- The coordinate-wise degeneracy test of the source is exactly point equality. -/
theorem degenerate_iff (s e : Point3D) :
    (s.x = e.x ∧ s.y = e.y ∧ s.z = e.z) ↔ s = e := by
  constructor
  · rintro ⟨h1, h2, h3⟩
    cases s; cases e; simp_all
  · rintro rfl; exact ⟨rfl, rfl, rfl⟩

/-- C3 counterexample: the distance is *not* planar.  Moving only the
z-coordinate of the segment end from `(1,0,0)` to `(1,0,1)` changes the
distance of the point `(0,1,0)` to the segment from `(0,0,0)`:
`1` versus `1/√2`. -/
theorem distance_point_to_line_depends_on_z :
    distance_point_to_line ⟨0, 1, 0⟩ ⟨0, 0, 0⟩ ⟨1, 0, 0⟩ ≠
      distance_point_to_line ⟨0, 1, 0⟩ ⟨0, 0, 0⟩ ⟨1, 0, 1⟩ := by
  have h1 : distance_point_to_line ⟨0, 1, 0⟩ ⟨0, 0, 0⟩ ⟨1, 0, 0⟩ = 1 := by
    rw [distance_point_to_line, if_neg (by norm_num)]
    norm_num
  have h2 : distance_point_to_line ⟨0, 1, 0⟩ ⟨0, 0, 0⟩ ⟨1, 0, 1⟩ = 1 / Real.sqrt 2 := by
    rw [distance_point_to_line, if_neg (by norm_num)]
    norm_num
  rw [h1, h2]
  intro h
  have hpos : 0 < Real.sqrt 2 := Real.sqrt_pos.mpr (by norm_num)
  have h' := congrArg (fun t => t * Real.sqrt 2) h
  simp only [one_mul, one_div, inv_mul_cancel₀ hpos.ne'] at h'
  have hsq : Real.sqrt 2 ^ 2 = 2 := Real.sq_sqrt (by norm_num)
  rw [h'] at hsq
  norm_num at hsq

/-- C3 (amended): the degeneracy test and the denominator use all three
coordinates, so the distance is not planar in the segment endpoints; but for
a non-degenerate segment the value depends on the *query point* only through
its x and y coordinates (the numerator is the planar cross product and the
denominator is the 3D segment length), and for a degenerate (zero-length)
segment — all three coordinates equal — it equals the 3D Euclidean distance
from the point to the shared endpoint. -/
theorem distance_point_to_line_parts (p s e : Point3D) :
    (s = e → distance_point_to_line p s e =
      Real.sqrt (((p.x - s.x : ℚ) : ℝ) ^ 2 + ((p.y - s.y : ℚ) : ℝ) ^ 2 +
        ((p.z - s.z : ℚ) : ℝ) ^ 2)) ∧
    (s ≠ e → ∀ z1 z2 : ℚ, distance_point_to_line ⟨p.x, p.y, z1⟩ s e =
      distance_point_to_line ⟨p.x, p.y, z2⟩ s e) ∧
    (s ≠ e → distance_point_to_line p s e =
      ((|(e.x - s.x) * (s.y - p.y) - (s.x - p.x) * (e.y - s.y)| : ℚ) : ℝ) /
      Real.sqrt (((e.x - s.x : ℚ) : ℝ) ^ 2 + ((e.y - s.y : ℚ) : ℝ) ^ 2 +
        ((e.z - s.z : ℚ) : ℝ) ^ 2)) := by
  refine ⟨?_, ?_, ?_⟩
  · intro hse
    rw [distance_point_to_line, if_pos ((degenerate_iff s e).mpr hse)]
  · intro hse z1 z2
    rw [distance_point_to_line, if_neg (fun hc => hse ((degenerate_iff s e).mp hc)),
      distance_point_to_line, if_neg (fun hc => hse ((degenerate_iff s e).mp hc))]
  · intro hse
    rw [distance_point_to_line, if_neg (fun hc => hse ((degenerate_iff s e).mp hc))]

/-- Witness for C3 (amended): for the non-degenerate segment
`(0,0,0)-(1,0,0)`, changing the query point's z-coordinate from 5 to 9
leaves the distance unchanged. -/
theorem distance_point_to_line_parts_witness :
    (Point3D.mk 0 0 0 ≠ Point3D.mk 1 0 0) ∧
    distance_point_to_line ⟨0, 1, 5⟩ ⟨0, 0, 0⟩ ⟨1, 0, 0⟩ =
      distance_point_to_line ⟨0, 1, 9⟩ ⟨0, 0, 0⟩ ⟨1, 0, 0⟩ :=
  ⟨by decide, (distance_point_to_line_parts ⟨0, 1, 0⟩ ⟨0, 0, 0⟩ ⟨1, 0, 0⟩).2.1
    (by decide) 5 9⟩

/-! ## Douglas-Peucker (`feature_extractor.py`, `FeatureExtractor.douglas_peucker`)

The recursion is embedded generically over the value type of the distance
function (instantiated at `ℝ` with `distance_point_to_line` by the feature
extractor, and at `ℚ` by executable witnesses), and with an explicit fuel
argument modelling Python's recursion depth: `none` means the recursion
exceeds every depth bound (Python's `RecursionError`). -/

/-- The scan `for i in range(1, len(points) - 1)` keeping the maximal
distance and its (first maximising) index, starting from `dmax = 0`,
`index = 0`; updates only on strictly larger distances. -/
def maxDistScan {α : Type} [LinearOrderedField α]
    (dist : Point3D → Point3D → Point3D → α) (points : List Point3D) : α × Nat :=
  (List.range' 1 (points.length - 2)).foldl
    (fun acc i =>
      let d := dist (points.getD i default) (points.headD default)
        (points.getLastD default)
      if d > acc.1 then (d, i) else acc)
    (0, 0)

/-- Embeds `FeatureExtractor.douglas_peucker` (`feature_extractor.py` lines 77-108)
with fuel: return inputs of length ≤ 2 unchanged; otherwise scan for the
point of maximum distance to the first-last segment; if `dmax > epsilon`,
recurse on `points[:index+1]` and `points[index:]` and concatenate dropping
the duplicated split point (`rec_results1[:-1] + rec_results2`); otherwise
collapse to `[points[0], points[-1]]`. -/
def dpF {α : Type} [LinearOrderedField α]
    (dist : Point3D → Point3D → Point3D → α) :
    Nat → List Point3D → α → Option (List Point3D)
  | 0, _, _ => none
  | fuel+1, points, epsilon =>
    if points.length ≤ 2 then some points
    else
      let s := maxDistScan dist points
      if s.1 > epsilon then
        match dpF dist fuel (points.take (s.2 + 1)) epsilon,
              dpF dist fuel (points.drop s.2) epsilon with
        | some r1, some r2 => some (r1.dropLast ++ r2)
        | _, _ => none
      else some [points.headD default, points.getLastD default]

/-- The `douglas_peucker` call at a fuel bound that suffices whenever the recursion
terminates at all (shown below for `epsilon ≥ 0`). -/
def douglas_peucker {α : Type} [LinearOrderedField α]
    (dist : Point3D → Point3D → Point3D → α) (points : List Point3D)
    (epsilon : α) : Option (List Point3D) :=
  dpF dist (points.length + 1) points epsilon

/-- Fold invariant of the maximum scan: the accumulator is either the initial
`(0, 0)` or a strictly positive maximum at an index that was a member of the
scanned range. -/
theorem foldl_scan_inv {α : Type} [LinearOrderedField α] (g : Nat → α) (n : Nat) :
    ∀ (l : List Nat) (acc : α × Nat),
      (∀ i ∈ l, 1 ≤ i ∧ i ≤ n) →
      (acc = (0, 0) ∨ (0 < acc.1 ∧ 1 ≤ acc.2 ∧ acc.2 ≤ n)) →
      (l.foldl (fun a i => if g i > a.1 then (g i, i) else a) acc = (0, 0) ∨
       (0 < (l.foldl (fun a i => if g i > a.1 then (g i, i) else a) acc).1 ∧
        1 ≤ (l.foldl (fun a i => if g i > a.1 then (g i, i) else a) acc).2 ∧
        (l.foldl (fun a i => if g i > a.1 then (g i, i) else a) acc).2 ≤ n)) := by
  intro l
  induction l with
  | nil => intro acc _ h; simpa using h
  | cons x xs ih =>
    intro acc hmem hacc
    rw [List.foldl_cons]
    apply ih
    · intro i hi; exact hmem i (by simp [hi])
    · by_cases hgt : g x > acc.1
      · have hx := hmem x (by simp)
        have hnn : (0 : α) ≤ acc.1 := by
          rcases hacc with h | h
          · rw [h]
          · exact le_of_lt h.1
        right
        rw [if_pos hgt]
        exact ⟨lt_of_le_of_lt hnn hgt, hx.1, hx.2⟩
      · rw [if_neg hgt]; exact hacc

/-- The scan result is either the untouched initial `(0, 0)` or a strictly
positive maximum whose index lies in `[1, len - 2]`. -/
theorem maxDistScan_inv {α : Type} [LinearOrderedField α]
    (dist : Point3D → Point3D → Point3D → α) (ps : List Point3D) :
    maxDistScan dist ps = (0, 0) ∨
    (0 < (maxDistScan dist ps).1 ∧ 1 ≤ (maxDistScan dist ps).2 ∧
     (maxDistScan dist ps).2 ≤ ps.length - 2) := by
  have := foldl_scan_inv
    (fun i => dist (ps.getD i default) (ps.headD default) (ps.getLastD default))
    (ps.length - 2) (List.range' 1 (ps.length - 2)) (0, 0)
    (fun i hi => by
      have h := List.mem_range'_1.mp hi
      exact ⟨h.1, by omega⟩)
    (Or.inl rfl)
  simpa [maxDistScan] using this

/-- When the scanned maximum exceeds a non-negative `epsilon`, the split
index is interior: `1 ≤ index ≤ len - 2`. -/
theorem maxDistScan_idx_bounds {α : Type} [LinearOrderedField α]
    (dist : Point3D → Point3D → Point3D → α) (ps : List Point3D) (epsilon : α)
    (hε : 0 ≤ epsilon) (hgt : (maxDistScan dist ps).1 > epsilon) :
    1 ≤ (maxDistScan dist ps).2 ∧ (maxDistScan dist ps).2 ≤ ps.length - 2 := by
  rcases maxDistScan_inv dist ps with h | h
  · rw [h] at hgt
    exact absurd (lt_of_le_of_lt hε hgt) (lt_irrefl 0)
  · exact ⟨h.2.1, h.2.2⟩

/-- A sublist ending at the same last element stays a sublist after
dropping the last element on both sides. -/
theorem sublist_dropLast {β : Type} {l m : List β} (h : l.Sublist m)
    (hl : l.getLast? = m.getLast?) : l.dropLast.Sublist m.dropLast := by
  induction h with
  | slnil => simp
  | @cons l' m' a h ih =>
    by_cases hnil : l' = []
    · subst hnil; simp
    · have hm : m' ≠ [] := by
        intro hm0; subst hm0; exact hnil (List.sublist_nil.mp h)
      obtain ⟨c, cs, rfl⟩ := List.exists_cons_of_ne_nil hm
      rw [List.getLast?_cons_cons] at hl
      rw [List.dropLast_cons₂]
      exact (ih hl).cons a
  | @cons₂ l' m' a h ih =>
    by_cases hnil : l' = []
    · subst hnil; simp
    · have hm : m' ≠ [] := by
        intro hm0; subst hm0; exact hnil (List.sublist_nil.mp h)
      obtain ⟨b, bs, rfl⟩ := List.exists_cons_of_ne_nil hnil
      obtain ⟨c, cs, rfl⟩ := List.exists_cons_of_ne_nil hm
      rw [List.getLast?_cons_cons, List.getLast?_cons_cons] at hl
      rw [List.dropLast_cons₂, List.dropLast_cons₂]
      exact (ih hl).cons₂ a

/-- Taking `k` elements preserves the head for `k ≠ 0`. -/
theorem head?_take_pos {β : Type} (l : List β) (k : Nat) (hk : k ≠ 0) :
    (l.take k).head? = l.head? := by
  cases l <;> cases k <;> simp_all

/-- Dropping `k` elements preserves the last element for `k < len`. -/
theorem getLast?_drop_of_lt {β : Type} (l : List β) (k : Nat) (hk : k < l.length) :
    (l.drop k).getLast? = l.getLast? := by
  rw [List.getLast?_eq_getElem?, List.getLast?_eq_getElem?, List.length_drop,
    List.getElem?_drop]
  congr 1
  omega

/-- The head of an append with a non-empty left part. -/
theorem head?_append_left {β : Type} (l r : List β) (h : l ≠ []) :
    (l ++ r).head? = l.head? := by
  obtain ⟨b, bs, rfl⟩ := List.exists_cons_of_ne_nil h
  simp

/-- The last element of an append with a non-empty right part. -/
theorem getLast?_append_right {β : Type} (l r : List β) (h : r ≠ []) :
    (l ++ r).getLast? = r.getLast? := by
  rw [List.getLast?_append]
  obtain ⟨y, hy⟩ := Option.isSome_iff_exists.mp (List.getLast?_isSome.mpr h)
  simp [hy]

/-- Dropping the last element preserves the head of a list of length ≥ 2. -/
theorem head?_dropLast_of_two_le {β : Type} (l : List β) (h : 2 ≤ l.length) :
    l.dropLast.head? = l.head? := by
  match l, h with
  | a :: b :: t, _ => rw [List.dropLast_cons₂]; simp

/-- An element delivered by `getLast?` is a member. -/
theorem mem_of_getLast?_eq {β : Type} {l : List β} {y : β}
    (h : l.getLast? = some y) : y ∈ l := by
  rw [List.getLast?_eq_getElem?] at h
  obtain ⟨hi, rfl⟩ := List.getElem?_eq_some.mp h
  exact List.getElem_mem hi

/-- The pair `[head, last]` is a sublist of any list with at least two elements. -/
theorem pair_head_last_sublist {β : Type} (a : β) (tl : List β) (y : β)
    (hy : tl.getLast? = some y) :
    [a, y].Sublist (a :: tl) :=
  List.Sublist.cons₂ a (List.singleton_sublist.mpr (mem_of_getLast?_eq hy))

/-- The structural guarantees of a Douglas-Peucker output: inputs of length
≤ 2 are returned unchanged; the output is a subsequence of the input; the
first and last input points are preserved; inputs of length ≥ 2 give outputs
of length ≥ 2. -/
def DPGood (ps r : List Point3D) : Prop :=
  (ps.length ≤ 2 → r = ps) ∧ r.Sublist ps ∧
  (ps ≠ [] → r.head? = ps.head? ∧ r.getLast? = ps.getLast?) ∧
  (2 ≤ ps.length → 2 ≤ r.length)

/-- For non-negative `epsilon`, any fuel exceeding the input length makes the
recursion succeed, and the output satisfies `DPGood`. -/
theorem dpF_some {α : Type} [LinearOrderedField α]
    (dist : Point3D → Point3D → Point3D → α) (epsilon : α) (hε : 0 ≤ epsilon) :
    ∀ (fuel : Nat) (ps : List Point3D), ps.length < fuel →
      ∃ r, dpF dist fuel ps epsilon = some r ∧ DPGood ps r := by
  intro fuel
  induction fuel with
  | zero => intro ps h; omega
  | succ n ih =>
    intro ps hlen
    by_cases h2 : ps.length ≤ 2
    · refine ⟨ps, by simp [dpF, h2], fun _ => rfl, List.Sublist.refl ps,
        fun _ => ⟨rfl, rfl⟩, fun h => h⟩
    · push_neg at h2
      by_cases hgt : (maxDistScan dist ps).1 > epsilon
      · obtain ⟨hidx1, hidx2⟩ := maxDistScan_idx_bounds dist ps epsilon hε hgt
        have htklen : (ps.take ((maxDistScan dist ps).2 + 1)).length =
            (maxDistScan dist ps).2 + 1 :=
          List.length_take_of_le (by omega)
        have hdplen : (ps.drop (maxDistScan dist ps).2).length =
            ps.length - (maxDistScan dist ps).2 := List.length_drop _ _
        obtain ⟨r1, hr1, hg1⟩ := ih (ps.take ((maxDistScan dist ps).2 + 1)) (by omega)
        obtain ⟨r2, hr2, hg2⟩ := ih (ps.drop (maxDistScan dist ps).2) (by omega)
        have htkne : ps.take ((maxDistScan dist ps).2 + 1) ≠ [] :=
          List.length_pos.mp (by omega)
        have hr1len : 2 ≤ r1.length := hg1.2.2.2 (by omega)
        have hr2len : 2 ≤ r2.length := hg2.2.2.2 (by omega)
        have hr1dlne : r1.dropLast ≠ [] := by
          apply List.length_pos.mp
          rw [List.length_dropLast]
          omega
        have hr2ne : r2 ≠ [] := List.length_pos.mp (by omega)
        have hdropLast_take : (ps.take ((maxDistScan dist ps).2 + 1)).dropLast =
            ps.take (maxDistScan dist ps).2 := by
          rw [List.dropLast_eq_take, htklen, List.take_take]
          congr 1
          omega
        have hsub1 : r1.dropLast.Sublist (ps.take (maxDistScan dist ps).2) := by
          rw [← hdropLast_take]
          exact sublist_dropLast hg1.2.1 ((hg1.2.2.1 htkne).2)
        refine ⟨r1.dropLast ++ r2, ?_, ?_, ?_, ?_, ?_⟩
        · simp only [dpF]
          rw [if_neg (by omega), if_pos hgt, hr1, hr2]
        · intro h; omega
        · have := List.Sublist.append hsub1 hg2.2.1
          rwa [List.take_append_drop] at this
        · intro _
          constructor
          · rw [head?_append_left _ _ hr1dlne, head?_dropLast_of_two_le _ hr1len,
              (hg1.2.2.1 htkne).1, head?_take_pos _ _ (by omega)]
          · rw [getLast?_append_right _ _ hr2ne,
              (hg2.2.2.1 (List.length_pos.mp (by omega))).2,
              getLast?_drop_of_lt _ _ (by omega)]
        · intro _
          rw [List.length_append]
          omega
      · have hpos : 0 < ps.length := by omega
        obtain ⟨a, tl, rfl⟩ := List.exists_cons_of_ne_nil (List.length_pos.mp hpos)
        have htl : tl ≠ [] := by
          intro h; subst h; simp at h2
        obtain ⟨y, hy⟩ := Option.isSome_iff_exists.mp
          (List.getLast?_isSome.mpr (List.cons_ne_nil a tl))
        have hyt : tl.getLast? = some y := by
          obtain ⟨b, bs, rfl⟩ := List.exists_cons_of_ne_nil htl
          rwa [List.getLast?_cons_cons] at hy
        have hr : [(a :: tl).headD default, (a :: tl).getLastD default] = [a, y] := by
          rw [List.headD_eq_head?, List.getLastD_eq_getLast?, hy]
          rfl
        refine ⟨[a, y], ?_, ?_, ?_, ?_, ?_⟩
        · simp only [dpF]
          rw [if_neg (by omega), if_neg hgt, hr]
        · intro h; omega
        · exact pair_head_last_sublist a tl y hyt
        · intro _
          refine ⟨rfl, ?_⟩
          rw [hy]
          rfl
        · intro _
          simp

/-- For non-negative `epsilon`, the result does not depend on the fuel once
the fuel exceeds the input length. -/
theorem dpF_fuel_irrel {α : Type} [LinearOrderedField α]
    (dist : Point3D → Point3D → Point3D → α) (epsilon : α) (hε : 0 ≤ epsilon) :
    ∀ (f1 f2 : Nat) (ps : List Point3D), ps.length < f1 → ps.length < f2 →
      dpF dist f1 ps epsilon = dpF dist f2 ps epsilon := by
  intro f1
  induction f1 with
  | zero => intro f2 ps h1 _; omega
  | succ n ih =>
    intro f2 ps h1 h2
    cases f2 with
    | zero => omega
    | succ m =>
      by_cases hle : ps.length ≤ 2
      · simp [dpF, hle]
      · push_neg at hle
        by_cases hgt : (maxDistScan dist ps).1 > epsilon
        · obtain ⟨hidx1, hidx2⟩ := maxDistScan_idx_bounds dist ps epsilon hε hgt
          have htklen : (ps.take ((maxDistScan dist ps).2 + 1)).length =
              (maxDistScan dist ps).2 + 1 := List.length_take_of_le (by omega)
          have hdplen : (ps.drop (maxDistScan dist ps).2).length =
              ps.length - (maxDistScan dist ps).2 := List.length_drop _ _
          have e1 := ih m (ps.take ((maxDistScan dist ps).2 + 1)) (by omega) (by omega)
          have e2 := ih m (ps.drop (maxDistScan dist ps).2) (by omega) (by omega)
          simp only [dpF, if_neg (show ¬ ps.length ≤ 2 by omega), if_pos hgt]
          rw [e1, e2]
        · simp only [dpF, if_neg (show ¬ ps.length ≤ 2 by omega), if_neg hgt]

/-- C2 (amended): for every distance function and every `epsilon ≥ 0` (the
source recursion need not terminate for negative `epsilon`, see the
counterexample), `douglas_peucker` terminates with an output that: equals
the input whenever the input has length ≤ 2; is a subsequence of the input;
preserves the first and the last input point; and, for longer inputs, is
obtained by splitting at the (first) point of maximum distance to the
first-last segment when that maximum exceeds `epsilon` — concatenating the
recursive results with the duplicated split point dropped — and by
collapsing to `[first, last]` otherwise. -/
theorem douglas_peucker_spec {α : Type} [LinearOrderedField α]
    (dist : Point3D → Point3D → Point3D → α) (ps : List Point3D) (epsilon : α)
    (hε : 0 ≤ epsilon) :
    ∃ r, douglas_peucker dist ps epsilon = some r ∧
      (ps.length ≤ 2 → r = ps) ∧
      r.Sublist ps ∧
      (ps ≠ [] → r.head? = ps.head? ∧ r.getLast? = ps.getLast?) ∧
      (2 < ps.length →
        ((maxDistScan dist ps).1 > epsilon →
          ∃ r1 r2,
            douglas_peucker dist (ps.take ((maxDistScan dist ps).2 + 1)) epsilon
              = some r1 ∧
            douglas_peucker dist (ps.drop (maxDistScan dist ps).2) epsilon
              = some r2 ∧
            r = r1.dropLast ++ r2) ∧
        (¬ (maxDistScan dist ps).1 > epsilon →
          r = [ps.headD default, ps.getLastD default])) := by
  obtain ⟨r, hr, hg⟩ := dpF_some dist epsilon hε (ps.length + 1) ps (by omega)
  refine ⟨r, hr, hg.1, hg.2.1, hg.2.2.1, ?_⟩
  intro h3
  constructor
  · intro hgt
    obtain ⟨hidx1, hidx2⟩ := maxDistScan_idx_bounds dist ps epsilon hε hgt
    have htklen : (ps.take ((maxDistScan dist ps).2 + 1)).length =
        (maxDistScan dist ps).2 + 1 := List.length_take_of_le (by omega)
    have hdplen : (ps.drop (maxDistScan dist ps).2).length =
        ps.length - (maxDistScan dist ps).2 := List.length_drop _ _
    obtain ⟨r1, hr1, _⟩ := dpF_some dist epsilon hε ps.length
      (ps.take ((maxDistScan dist ps).2 + 1)) (by omega)
    obtain ⟨r2, hr2, _⟩ := dpF_some dist epsilon hε ps.length
      (ps.drop (maxDistScan dist ps).2) (by omega)
    refine ⟨r1, r2, ?_, ?_, ?_⟩
    · simp only [douglas_peucker]
      rw [dpF_fuel_irrel dist epsilon hε _ ps.length _ (by omega) (by omega), hr1]
    · simp only [douglas_peucker]
      rw [dpF_fuel_irrel dist epsilon hε _ ps.length _ (by omega) (by omega), hr2]
    · have hstep : dpF dist (ps.length + 1) ps epsilon = some (r1.dropLast ++ r2) := by
        simp only [dpF]
        rw [if_neg (by omega), if_pos hgt, hr1, hr2]
      rw [hr] at hstep
      exact Option.some_injective _ hstep
  · intro hngt
    have hstep : dpF dist (ps.length + 1) ps epsilon =
        some [ps.headD default, ps.getLastD default] := by
      simp only [dpF]
      rw [if_neg (by omega), if_neg hngt]
    rw [hr] at hstep
    exact Option.some_injective _ hstep

/-- Witness for C2 (amended): the two-point sequence is returned unchanged
at `epsilon = 0` over `ℚ` with the zero distance function. -/
theorem douglas_peucker_spec_witness :
    (0 : ℚ) ≤ 0 ∧
    ∃ r, douglas_peucker (fun _ _ _ => (0 : ℚ)) [⟨0, 0, 0⟩, ⟨1, 0, 0⟩] (0 : ℚ)
        = some r ∧
      (([⟨0, 0, 0⟩, ⟨1, 0, 0⟩] : List Point3D).length ≤ 2 →
        r = [⟨0, 0, 0⟩, ⟨1, 0, 0⟩]) ∧
      r.Sublist [⟨0, 0, 0⟩, ⟨1, 0, 0⟩] ∧
      (([⟨0, 0, 0⟩, ⟨1, 0, 0⟩] : List Point3D) ≠ [] →
        r.head? = ([⟨0, 0, 0⟩, ⟨1, 0, 0⟩] : List Point3D).head? ∧
        r.getLast? = ([⟨0, 0, 0⟩, ⟨1, 0, 0⟩] : List Point3D).getLast?) ∧
      (2 < ([⟨0, 0, 0⟩, ⟨1, 0, 0⟩] : List Point3D).length →
        ((maxDistScan (fun _ _ _ => (0 : ℚ)) [⟨0, 0, 0⟩, ⟨1, 0, 0⟩]).1 > 0 →
          ∃ r1 r2,
            douglas_peucker (fun _ _ _ => (0 : ℚ))
              ([⟨0, 0, 0⟩, ⟨1, 0, 0⟩].take
                ((maxDistScan (fun _ _ _ => (0 : ℚ)) [⟨0, 0, 0⟩, ⟨1, 0, 0⟩]).2 + 1)) 0
              = some r1 ∧
            douglas_peucker (fun _ _ _ => (0 : ℚ))
              ([⟨0, 0, 0⟩, ⟨1, 0, 0⟩].drop
                (maxDistScan (fun _ _ _ => (0 : ℚ)) [⟨0, 0, 0⟩, ⟨1, 0, 0⟩]).2) 0
              = some r2 ∧
            r = r1.dropLast ++ r2) ∧
        (¬ (maxDistScan (fun _ _ _ => (0 : ℚ)) [⟨0, 0, 0⟩, ⟨1, 0, 0⟩]).1 > 0 →
          r = [([⟨0, 0, 0⟩, ⟨1, 0, 0⟩] : List Point3D).headD default,
               ([⟨0, 0, 0⟩, ⟨1, 0, 0⟩] : List Point3D).getLastD default])) :=
  ⟨le_refl 0, douglas_peucker_spec (fun _ _ _ => (0 : ℚ)) [⟨0, 0, 0⟩, ⟨1, 0, 0⟩] 0
    (le_refl 0)⟩

/-- The distance of the origin to the degenerate segment at the origin is 0. -/
theorem dist_origin_zero :
    distance_point_to_line ⟨0, 0, 0⟩ ⟨0, 0, 0⟩ ⟨0, 0, 0⟩ = 0 := by
  rw [distance_point_to_line, if_pos ⟨rfl, rfl, rfl⟩]
  norm_num

/-- On three identical points the scan finds `dmax = 0` at `index = 0`. -/
theorem maxDistScan_triple_origin :
    maxDistScan distance_point_to_line
      [(⟨0, 0, 0⟩ : Point3D), ⟨0, 0, 0⟩, ⟨0, 0, 0⟩] = (0, 0) := by
  have h1 : List.range' 1 (([(⟨0, 0, 0⟩ : Point3D), ⟨0, 0, 0⟩, ⟨0, 0, 0⟩]).length - 2)
      = [1] := rfl
  rw [maxDistScan, h1]
  simp only [List.foldl_cons, List.foldl_nil]
  rw [show ([(⟨0, 0, 0⟩ : Point3D), ⟨0, 0, 0⟩, ⟨0, 0, 0⟩].getD 1 default) = ⟨0, 0, 0⟩
      from rfl,
    show ([(⟨0, 0, 0⟩ : Point3D), ⟨0, 0, 0⟩, ⟨0, 0, 0⟩].headD default) = ⟨0, 0, 0⟩
      from rfl,
    show ([(⟨0, 0, 0⟩ : Point3D), ⟨0, 0, 0⟩, ⟨0, 0, 0⟩].getLastD default) = ⟨0, 0, 0⟩
      from rfl,
    dist_origin_zero]
  norm_num

/-- For `epsilon = -1` on three identical points the recursion never
terminates: each unfolding calls itself on the *same* list (`index = 0`, so
`points[index:]` is the whole input), and every fuel bound is exhausted —
the Python source recurses until `RecursionError`. -/
theorem dpF_triple_origin_neg_eps_none (fuel : Nat) :
    dpF distance_point_to_line fuel
      [(⟨0, 0, 0⟩ : Point3D), ⟨0, 0, 0⟩, ⟨0, 0, 0⟩] (-1 : ℝ) = none := by
  induction fuel with
  | zero => rfl
  | succ n ih =>
    simp only [dpF, maxDistScan_triple_origin,
      if_neg (show ¬ ([(⟨0, 0, 0⟩ : Point3D), ⟨0, 0, 0⟩, ⟨0, 0, 0⟩].length ≤ 2)
        by norm_num),
      if_pos (show ((0 : ℝ), 0).1 > (-1 : ℝ) by norm_num)]
    rw [show ([(⟨0, 0, 0⟩ : Point3D), ⟨0, 0, 0⟩, ⟨0, 0, 0⟩].drop (((0:ℝ), 0).2))
        = [(⟨0, 0, 0⟩ : Point3D), ⟨0, 0, 0⟩, ⟨0, 0, 0⟩] from rfl, ih]
    cases hn : dpF distance_point_to_line n
        ([(⟨0, 0, 0⟩ : Point3D), ⟨0, 0, 0⟩, ⟨0, 0, 0⟩].take (((0:ℝ), 0).2 + 1))
        (-1 : ℝ) <;> rfl

/-- C2 counterexample: for `epsilon = -1` and the three-point sequence
`[(0,0,0), (0,0,0), (0,0,0)]` the Douglas-Peucker recursion diverges
(`RecursionError` in the source; `none` at every fuel bound here, shown at
fuel 1000 and at the canonical wrapper), so there is no output at all —
refuting the claim's "for every point sequence and every epsilon". -/
theorem douglas_peucker_neg_eps_diverges :
    dpF distance_point_to_line 1000
      [(⟨0, 0, 0⟩ : Point3D), ⟨0, 0, 0⟩, ⟨0, 0, 0⟩] (-1 : ℝ) = none ∧
    douglas_peucker distance_point_to_line
      [(⟨0, 0, 0⟩ : Point3D), ⟨0, 0, 0⟩, ⟨0, 0, 0⟩] (-1 : ℝ) = none :=
  ⟨dpF_triple_origin_neg_eps_none 1000, dpF_triple_origin_neg_eps_none 4⟩

/-! ## Stroke and global features (`feature_extractor.py`,
`calculate_stroke_features` / `calculate_global_features`) -/

/-- Embeds `np.sqrt(dx*dx + dy*dy + dz*dz)` for a consecutive pair. -/
noncomputable def dist3D (a b : Point3D) : ℝ :=
  Real.sqrt (((b.x - a.x : ℚ) : ℝ) ^ 2 + ((b.y - a.y : ℚ) : ℝ) ^ 2 +
    ((b.z - a.z : ℚ) : ℝ) ^ 2)

/-- The stroke-length loop
`for i in range(len(points) - 1): total_length += sqrt(...)`. -/
noncomputable def totalLength (points : List Point3D) : ℝ :=
  ∑ i ∈ Finset.range (points.length - 1),
    dist3D (points.getD i default) (points.getD (i + 1) default)

/-- Claim-side formulation: the sum of Euclidean distances over all
consecutive pairs. -/
noncomputable def pairLengthSum : List Point3D → ℝ
  | a :: b :: rest => dist3D a b + pairLengthSum (b :: rest)
  | _ => 0

/-- The index-based loop and the consecutive-pairs recursion agree. -/
theorem totalLength_eq_pairLengthSum : ∀ ps : List Point3D,
    totalLength ps = pairLengthSum ps
  | [] => by simp [totalLength, pairLengthSum]
  | [a] => by simp [totalLength, pairLengthSum]
  | a :: b :: t => by
    rw [pairLengthSum, ← totalLength_eq_pairLengthSum (b :: t)]
    simp only [totalLength, List.length_cons]
    rw [show (t.length + 1 + 1) - 1 = (t.length + 1 - 1) + 1 by omega,
      Finset.sum_range_succ']
    simp only [List.getD_cons_succ, List.getD_cons_zero]
    ring

/-- Python `max(...)` over a non-empty rational list (junk 0 on empty — the
source raises `ValueError` there, guarded by the caller). -/
def listMax : List ℚ → ℚ
  | [] => 0
  | x :: xs => xs.foldl max x

/-- Python `min(...)` over a non-empty rational list. -/
def listMin : List ℚ → ℚ
  | [] => 0
  | x :: xs => xs.foldl min x

/-- The `bounding_box` sub-dictionary. -/
structure BoundingBox where
  width : ℚ
  height : ℚ
  depth : ℚ
deriving DecidableEq, Repr

/-- The per-stroke feature dictionary built by `calculate_stroke_features`. -/
structure StrokeFeatures where
  points_count : ℕ
  bounding_box : BoundingBox
  start_point : Point3D
  end_point : Point3D
  total_length : ℝ
  is_closed : Prop
  simplified_points : List Point3D

/-- Embeds `FeatureExtractor.calculate_stroke_features` (`feature_extractor.py`
lines 110-175): simplify with Douglas-Peucker at `self.epsilon`; bounding
box from *all* input points; total length over *all* consecutive original
pairs; closure test `dist(first, last) < 0.05` on the *original* endpoints.
`none` models the `ValueError`/`IndexError` raised on an empty position
list, or a `RecursionError` escaping the simplifier (possible only for
negative epsilon). -/
noncomputable def calculate_stroke_features (epsilon : ℝ)
    (positions : List Point3D) : Option StrokeFeatures :=
  match positions with
  | [] => none
  | p :: rest =>
    match douglas_peucker distance_point_to_line (p :: rest) epsilon with
    | none => none
    | some simplified =>
      some { points_count := simplified.length,
             bounding_box :=
               { width := listMax ((p :: rest).map (fun q => q.x)) -
                   listMin ((p :: rest).map (fun q => q.x)),
                 height := listMax ((p :: rest).map (fun q => q.y)) -
                   listMin ((p :: rest).map (fun q => q.y)),
                 depth := listMax ((p :: rest).map (fun q => q.z)) -
                   listMin ((p :: rest).map (fun q => q.z)) },
             start_point := p,
             end_point := (p :: rest).getLastD default,
             total_length := totalLength (p :: rest),
             is_closed := dist3D p ((p :: rest).getLastD default) < 1/20,
             simplified_points := simplified }

/-- The global feature dictionary built by `calculate_global_features`. -/
structure GlobalFeatures where
  total_strokes : ℕ
  total_points : ℕ
  aspect_ratio : ℚ
  centroid : Point3D

/-- Embeds `FeatureExtractor.calculate_global_features` (`feature_extractor.py`
lines 177-211): flatten every stroke's `simplified_points`; bounding box
width/height over the flattened set; `aspect_ratio = width/height if
height != 0 else 0`; centroid as the coordinate-wise mean.  `none` models
the `ValueError` raised by `max([])` when the flattened set is empty. -/
def calculate_global_features (strokes : List StrokeFeatures) :
    Option GlobalFeatures :=
  match strokes.flatMap (fun s => s.simplified_points) with
  | [] => none
  | q :: qs =>
    let all_points := q :: qs
    let xs := all_points.map (fun p => p.x)
    let ys := all_points.map (fun p => p.y)
    let zs := all_points.map (fun p => p.z)
    let width := listMax xs - listMin xs
    let height := listMax ys - listMin ys
    some { total_strokes := strokes.length,
           total_points := all_points.length,
           aspect_ratio := if height ≠ 0 then width / height else 0,
           centroid := ⟨xs.sum / (xs.length : ℚ), ys.sum / (ys.length : ℚ),
             zs.sum / (zs.length : ℚ)⟩ }

/-- A `foldl max` over elements all equal to `c`, started at `c`, stays `c`. -/
theorem foldl_max_const {c : ℚ} : ∀ (l : List ℚ) (acc : ℚ),
    (∀ v ∈ l, v = c) → acc = c → l.foldl max acc = c
  | [], _, _, hacc => hacc
  | x :: xs, acc, hmem, hacc => by
    rw [List.foldl_cons]
    exact foldl_max_const xs (max acc x)
      (fun v hv => hmem v (List.mem_cons_of_mem x hv))
      (by rw [hacc, hmem x (List.mem_cons_self x xs), max_self])

/-- A `foldl min` over elements all equal to `c`, started at `c`, stays `c`. -/
theorem foldl_min_const {c : ℚ} : ∀ (l : List ℚ) (acc : ℚ),
    (∀ v ∈ l, v = c) → acc = c → l.foldl min acc = c
  | [], _, _, hacc => hacc
  | x :: xs, acc, hmem, hacc => by
    rw [List.foldl_cons]
    exact foldl_min_const xs (min acc x)
      (fun v hv => hmem v (List.mem_cons_of_mem x hv))
      (by rw [hacc, hmem x (List.mem_cons_self x xs), min_self])

/-- The `max` of a constant non-empty list. -/
theorem listMax_const (l : List ℚ) (c : ℚ) (hl : l ≠ []) (h : ∀ v ∈ l, v = c) :
    listMax l = c := by
  obtain ⟨x, xs, rfl⟩ := List.exists_cons_of_ne_nil hl
  exact foldl_max_const xs x (fun v hv => h v (List.mem_cons_of_mem x hv))
    (h x (List.mem_cons_self x xs))

/-- The `min` of a constant non-empty list. -/
theorem listMin_const (l : List ℚ) (c : ℚ) (hl : l ≠ []) (h : ∀ v ∈ l, v = c) :
    listMin l = c := by
  obtain ⟨x, xs, rfl⟩ := List.exists_cons_of_ne_nil hl
  exact foldl_min_const xs x (fun v hv => h v (List.mem_cons_of_mem x hv))
    (h x (List.mem_cons_self x xs))

/-- C4: for every non-empty position list (and the extractor's non-negative
epsilon), stroke feature extraction succeeds and computes the bounding box
over ALL original input points, `total_length` as the sum of Euclidean
distances over all consecutive pairs of the ORIGINAL points (so it is
unaffected by simplification), and `is_closed` true iff the distance between
the first and last original point is strictly below 0.05; a single-point
stroke yields `total_length` 0, a zero-size bounding box, and
`is_closed = true`. -/
theorem calculate_stroke_features_spec (epsilon : ℝ) (hε : 0 ≤ epsilon)
    (positions : List Point3D) (hne : positions ≠ []) :
    ∃ f, calculate_stroke_features epsilon positions = some f ∧
      f.bounding_box =
        ⟨listMax (positions.map (fun q => q.x)) - listMin (positions.map (fun q => q.x)),
         listMax (positions.map (fun q => q.y)) - listMin (positions.map (fun q => q.y)),
         listMax (positions.map (fun q => q.z)) - listMin (positions.map (fun q => q.z))⟩ ∧
      f.total_length = pairLengthSum positions ∧
      (f.is_closed ↔
        dist3D (positions.headD default) (positions.getLastD default) < 1/20) ∧
      (∀ p, positions = [p] →
        f.total_length = 0 ∧ f.bounding_box = ⟨0, 0, 0⟩ ∧ f.is_closed) := by
  obtain ⟨p, rest, rfl⟩ := List.exists_cons_of_ne_nil hne
  obtain ⟨simplified, hdp, -⟩ := dpF_some distance_point_to_line epsilon hε
    ((p :: rest).length + 1) (p :: rest) (by omega)
  have hdp' : douglas_peucker distance_point_to_line (p :: rest) epsilon
      = some simplified := hdp
  refine ⟨_, by simp only [calculate_stroke_features]; rw [hdp'], rfl,
    totalLength_eq_pairLengthSum _, Iff.rfl, ?_⟩
  intro q hq
  obtain ⟨rfl, rfl⟩ : p = q ∧ rest = [] := by
    injection hq with h1 h2
    exact ⟨h1, h2⟩
  refine ⟨?_, ?_, ?_⟩
  · simp [totalLength]
  · simp [listMax, listMin]
  · show dist3D p ([p].getLastD default) < 1/20
    have : dist3D p ([p].getLastD default) = 0 := by
      simp [dist3D, Real.sqrt_zero]
    rw [this]
    norm_num

/-- Witness for C4 at the single-point stroke `[(0,0,0)]` and `epsilon = 0`. -/
theorem calculate_stroke_features_spec_witness :
    (0 : ℝ) ≤ 0 ∧ ([(⟨0, 0, 0⟩ : Point3D)] ≠ []) ∧
    (∃ f, calculate_stroke_features 0 [(⟨0, 0, 0⟩ : Point3D)] = some f ∧
      f.bounding_box =
        ⟨listMax ([(⟨0, 0, 0⟩ : Point3D)].map (fun q => q.x)) -
           listMin ([(⟨0, 0, 0⟩ : Point3D)].map (fun q => q.x)),
         listMax ([(⟨0, 0, 0⟩ : Point3D)].map (fun q => q.y)) -
           listMin ([(⟨0, 0, 0⟩ : Point3D)].map (fun q => q.y)),
         listMax ([(⟨0, 0, 0⟩ : Point3D)].map (fun q => q.z)) -
           listMin ([(⟨0, 0, 0⟩ : Point3D)].map (fun q => q.z))⟩ ∧
      f.total_length = pairLengthSum [(⟨0, 0, 0⟩ : Point3D)] ∧
      (f.is_closed ↔
        dist3D ([(⟨0, 0, 0⟩ : Point3D)].headD default)
          ([(⟨0, 0, 0⟩ : Point3D)].getLastD default) < 1/20) ∧
      (∀ p, [(⟨0, 0, 0⟩ : Point3D)] = [p] →
        f.total_length = 0 ∧ f.bounding_box = ⟨0, 0, 0⟩ ∧ f.is_closed)) :=
  ⟨le_refl 0, by simp,
    calculate_stroke_features_spec 0 (le_refl 0) [⟨0, 0, 0⟩] (by simp)⟩

/-- C5: whenever the flattened simplified points are non-empty, global
feature aggregation succeeds, computes `aspect_ratio = width/height` over
the flattened simplified points when the height is nonzero and exactly 0
when the height is 0 (in particular when all points share one y-coordinate),
never dividing by zero, and returns the centroid as the coordinate-wise
arithmetic mean of all simplified points. -/
theorem calculate_global_features_spec (strokes : List StrokeFeatures)
    (hne : strokes.flatMap (fun s => s.simplified_points) ≠ []) :
    ∃ g, calculate_global_features strokes = some g ∧
      g.total_strokes = strokes.length ∧
      g.total_points = (strokes.flatMap (fun s => s.simplified_points)).length ∧
      ((listMax ((strokes.flatMap (fun s => s.simplified_points)).map (fun p => p.y)) -
          listMin ((strokes.flatMap (fun s => s.simplified_points)).map (fun p => p.y))) ≠ 0 →
        g.aspect_ratio =
          (listMax ((strokes.flatMap (fun s => s.simplified_points)).map (fun p => p.x)) -
           listMin ((strokes.flatMap (fun s => s.simplified_points)).map (fun p => p.x))) /
          (listMax ((strokes.flatMap (fun s => s.simplified_points)).map (fun p => p.y)) -
           listMin ((strokes.flatMap (fun s => s.simplified_points)).map (fun p => p.y)))) ∧
      ((listMax ((strokes.flatMap (fun s => s.simplified_points)).map (fun p => p.y)) -
          listMin ((strokes.flatMap (fun s => s.simplified_points)).map (fun p => p.y))) = 0 →
        g.aspect_ratio = 0) ∧
      (∀ c, (∀ p ∈ strokes.flatMap (fun s => s.simplified_points), p.y = c) →
        g.aspect_ratio = 0) ∧
      g.centroid =
        ⟨((strokes.flatMap (fun s => s.simplified_points)).map (fun p => p.x)).sum /
           (((strokes.flatMap (fun s => s.simplified_points)).map (fun p => p.x)).length : ℚ),
         ((strokes.flatMap (fun s => s.simplified_points)).map (fun p => p.y)).sum /
           (((strokes.flatMap (fun s => s.simplified_points)).map (fun p => p.y)).length : ℚ),
         ((strokes.flatMap (fun s => s.simplified_points)).map (fun p => p.z)).sum /
           (((strokes.flatMap (fun s => s.simplified_points)).map (fun p => p.z)).length : ℚ)⟩ := by
  obtain ⟨q, qs, hflat⟩ := List.exists_cons_of_ne_nil hne
  have heq : calculate_global_features strokes =
      some { total_strokes := strokes.length,
             total_points := (q :: qs).length,
             aspect_ratio :=
               if (listMax ((q :: qs).map (fun p => p.y)) -
                   listMin ((q :: qs).map (fun p => p.y))) ≠ 0 then
                 (listMax ((q :: qs).map (fun p => p.x)) -
                  listMin ((q :: qs).map (fun p => p.x))) /
                 (listMax ((q :: qs).map (fun p => p.y)) -
                  listMin ((q :: qs).map (fun p => p.y)))
               else 0,
             centroid :=
               ⟨((q :: qs).map (fun p => p.x)).sum /
                  (((q :: qs).map (fun p => p.x)).length : ℚ),
                ((q :: qs).map (fun p => p.y)).sum /
                  (((q :: qs).map (fun p => p.y)).length : ℚ),
                ((q :: qs).map (fun p => p.z)).sum /
                  (((q :: qs).map (fun p => p.z)).length : ℚ)⟩ } := by
    simp only [calculate_global_features]
    rw [hflat]
  rw [hflat]
  refine ⟨_, heq, rfl, rfl, ?_, ?_, ?_, rfl⟩
  · intro hh
    simp only [if_pos hh]
  · intro hh
    simp only [hh, ne_eq, not_true_eq_false, if_neg, not_false_eq_true,
      if_neg (show ¬ (0 : ℚ) ≠ 0 by simp)]
  · intro c hc
    have hmapne : (q :: qs).map (fun p => p.y) ≠ [] := by simp
    have hall : ∀ v ∈ (q :: qs).map (fun p => p.y), v = c := by
      intro v hv
      obtain ⟨p, hp, rfl⟩ := List.mem_map.mp hv
      exact hc p (hflat ▸ hp)
    have hzero : listMax ((q :: qs).map (fun p => p.y)) -
        listMin ((q :: qs).map (fun p => p.y)) = 0 := by
      rw [listMax_const _ c hmapne hall, listMin_const _ c hmapne hall, sub_self]
    simp only [hzero, ne_eq, not_true_eq_false]
    simp

/-- Witness for C5: two simplified points sharing one y-coordinate give a
zero height and aspect ratio 0, with the centroid at their midpoint. -/
theorem calculate_global_features_spec_witness :
    (([{ points_count := 2, bounding_box := ⟨2, 0, 0⟩, start_point := ⟨0, 0, 0⟩,
         end_point := ⟨2, 0, 0⟩, total_length := 2, is_closed := False,
         simplified_points := [⟨0, 0, 0⟩, ⟨2, 0, 0⟩] }] :
       List StrokeFeatures).flatMap (fun s => s.simplified_points) ≠ []) ∧
    (∃ g, calculate_global_features
        [{ points_count := 2, bounding_box := ⟨2, 0, 0⟩, start_point := ⟨0, 0, 0⟩,
           end_point := ⟨2, 0, 0⟩, total_length := 2, is_closed := False,
           simplified_points := [⟨0, 0, 0⟩, ⟨2, 0, 0⟩] }] = some g ∧
      g.aspect_ratio = 0 ∧ g.centroid = ⟨1, 0, 0⟩) := by
  refine ⟨by simp, ?_⟩
  obtain ⟨g, hg, -, -, -, -, hsame, hcent⟩ :=
    calculate_global_features_spec
      [{ points_count := 2, bounding_box := ⟨2, 0, 0⟩, start_point := ⟨0, 0, 0⟩,
         end_point := ⟨2, 0, 0⟩, total_length := 2, is_closed := False,
         simplified_points := [⟨0, 0, 0⟩, ⟨2, 0, 0⟩] }] (by simp)
  refine ⟨g, hg, hsame 0 (by intro p hp; simp at hp; rcases hp with rfl | rfl <;> rfl), ?_⟩
  rw [hcent]
  norm_num

end PenKey
